import Mathlib

/-!
Verification of the response-parsing subsystem of the pastebin API wrapper
(`pastebin/__init__.py`).

The parsing core consists of two `HTMLParser` subclasses.  The stdlib
`HTMLParser` machinery tokenizes markup and calls `handle_data(data)` once
per text node; inside the callback, `get_starttag_text()[1:-1]` recovers the
name of the most recent start tag.  We therefore model a parse input as the
list of `(enclosing start-tag name, text content)` pairs seen by
`handle_data`, and embed the repository code that runs on that stream:

* `PastebinPasteListParser.handle_data` / `._get_pastes`
* `PastebinUserParser.handle_data` / `._get_user_information`
* the record constructors `PastebinPaste.__init__` and `PastebinUser.__init__`

Fallible code (`raise AttributeError`, the `TypeError` from `**kwargs`
expansion with an unexpected keyword) is embedded with `Except String`.
-/

/-- One markup text node together with the name of its immediately enclosing
start tag, as seen by an `HTMLParser.handle_data` callback. -/
structure TagData where
  tag : String
  data : String
deriving Repr, DecidableEq, Inhabited

/-! ## PastebinPasteListParser -/

/-- `PastebinPasteListParser.handle_data`: the mutable state is the list
`self._tups`; the pair `(tag, data)` is appended unless the text content is
exactly the two-character string CR LF. -/
def pplp_handle_data (tups : List (String × String)) (e : TagData) :
    List (String × String) :=
  if e.data ≠ "\r\n" then tups ++ [(e.tag, e.data)] else tups

/-- Feeding a whole document to a fresh `PastebinPasteListParser`: the state
after all `handle_data` callbacks fired, starting from `self._tups = []`. -/
def pplp_feed (events : List TagData) : List (String × String) :=
  events.foldl pplp_handle_data []

/-- The `PastebinPaste` record (`PastebinPaste.__init__` stores its ten
positional arguments unchanged; the parser passes the raw text strings). -/
structure PastebinPaste where
  paste_key : String
  paste_date : String
  paste_title : String
  paste_size : String
  paste_expire_date : String
  paste_private : String
  paste_format_long : String
  paste_format_short : String
  paste_url : String
  paste_hits : String
deriving Repr, DecidableEq, Inhabited

/-- The text component of `self._tups[n]` (all accesses made by the code are
in bounds, so the default value is never used). -/
def tup_data (tups : List (String × String)) (n : Nat) : String :=
  (tups.getD n ("", "")).2

/-- The body of the `while` loop of `PastebinPasteListParser._get_pastes`:
the `PastebinPaste` built from `self._tups[10*ind .. 10*ind+9]`, in the
positional order of the source. -/
def mk_paste (tups : List (String × String)) (ind : Nat) : PastebinPaste :=
  { paste_key := tup_data tups (10 * ind + 0)
    paste_date := tup_data tups (10 * ind + 1)
    paste_title := tup_data tups (10 * ind + 2)
    paste_size := tup_data tups (10 * ind + 3)
    paste_expire_date := tup_data tups (10 * ind + 4)
    paste_private := tup_data tups (10 * ind + 5)
    paste_format_long := tup_data tups (10 * ind + 6)
    paste_format_short := tup_data tups (10 * ind + 7)
    paste_url := tup_data tups (10 * ind + 8)
    paste_hits := tup_data tups (10 * ind + 9) }

/-- The message of the `AttributeError` raised by
`PastebinPasteListParser._get_pastes` on an empty `self._tups`. -/
def pplp_not_ready_msg : String :=
  "AttributeError: please call the PastebinPasteListParser.feed(data) method to get a list of tuples from the Pastebin list_pastes API before using this method"

/-- `PastebinPasteListParser._get_pastes`: raises `AttributeError` when
`self._tups` is empty; otherwise `n_pastes = len(self._tups) // 10` and the
`while` loop appends `mk_paste` for `ind = 0, 1, ..., n_pastes - 1`. -/
def pplp_get_pastes_impl (tups : List (String × String)) :
    Except String (List PastebinPaste) :=
  if tups = [] then
    Except.error pplp_not_ready_msg
  else
    Except.ok ((List.range (tups.length / 10)).map (mk_paste tups))

/-- `PastebinPasteListParser.get_pastes(data)` on a fresh instance:
`self.feed(data)` followed by `self._get_pastes()`. -/
def pplp_get_pastes (events : List TagData) : Except String (List PastebinPaste) :=
  pplp_get_pastes_impl (pplp_feed events)

/-! ## PastebinUserParser -/

/-- Assignment `d[k] = v` on an `OrderedDict` modelled as an association
list: an existing key keeps its position and gets the new value, a new key
is appended at the end. -/
def od_insert (d : List (String × String)) (k v : String) :
    List (String × String) :=
  if d.any (fun p => p.1 = k) then
    d.map (fun p => if p.1 = k then (k, v) else p)
  else
    d ++ [(k, v)]

/-- `OrderedDict` key lookup: the value at the first (hence, keys being
unique, the only) pair whose key matches. -/
def od_lookup (d : List (String × String)) (k : String) : Option String :=
  (d.find? (fun p => p.1 = k)).map (fun p => p.2)

/-- `PastebinUserParser.handle_data`: the mutable state is the ordered
dictionary `self._user_dict`; `self._user_dict[tag] = data` runs unless the
text content is exactly CR LF. -/
def pup_handle_data (d : List (String × String)) (e : TagData) :
    List (String × String) :=
  if e.data ≠ "\r\n" then od_insert d e.tag e.data else d

/-- Feeding a whole document to a fresh `PastebinUserParser`, starting from
`self._user_dict = OrderedDict()`. -/
def pup_feed (events : List TagData) : List (String × String) :=
  events.foldl pup_handle_data []

/-- The `PastebinUser` record: nine keyword parameters, each defaulting to
`None` (`Option.none`). -/
structure PastebinUser where
  user_name : Option String := none
  user_format_short : Option String := none
  user_expiration : Option String := none
  user_avatar_url : Option String := none
  user_private : Option String := none
  user_website : Option String := none
  user_email : Option String := none
  user_location : Option String := none
  user_account_type : Option String := none
deriving Repr, DecidableEq, Inhabited

/-- The nine keyword-parameter names of `PastebinUser.__init__`. -/
def known_user_fields : List String :=
  ["user_name", "user_format_short", "user_expiration", "user_avatar_url",
   "user_private", "user_website", "user_email", "user_location",
   "user_account_type"]

/-- The message of the `TypeError` raised by `PastebinUser(**d)` when `d`
holds a key that is not a parameter of `PastebinUser.__init__`. -/
def pup_type_error_msg : String :=
  "TypeError: __init__() got an unexpected keyword argument"

/-- `PastebinUserParser._get_user_information`: `PastebinUser(**self._user_dict)`.
Keyword expansion raises `TypeError` when some key of the dictionary is not
among the nine parameters; otherwise each parameter is bound to the value of
its key when present and to its `None` default otherwise. -/
def pup_get_user_information_impl (d : List (String × String)) :
    Except String PastebinUser :=
  if d.all (fun p => known_user_fields.contains p.1) then
    Except.ok
      { user_name := od_lookup d "user_name"
        user_format_short := od_lookup d "user_format_short"
        user_expiration := od_lookup d "user_expiration"
        user_avatar_url := od_lookup d "user_avatar_url"
        user_private := od_lookup d "user_private"
        user_website := od_lookup d "user_website"
        user_email := od_lookup d "user_email"
        user_location := od_lookup d "user_location"
        user_account_type := od_lookup d "user_account_type" }
  else
    Except.error pup_type_error_msg

/-- `PastebinUserParser.get_user_information(data)` on a fresh instance:
`self.feed(data)` followed by `self._get_user_information()`. -/
def pup_get_user_information (events : List TagData) : Except String PastebinUser :=
  pup_get_user_information_impl (pup_feed events)

/-- Projection of a `PastebinUser` field by its keyword name (names outside
the nine known ones have no field and yield `none`). -/
def user_field (u : PastebinUser) (k : String) : Option String :=
  if k = "user_name" then u.user_name
  else if k = "user_format_short" then u.user_format_short
  else if k = "user_expiration" then u.user_expiration
  else if k = "user_avatar_url" then u.user_avatar_url
  else if k = "user_private" then u.user_private
  else if k = "user_website" then u.user_website
  else if k = "user_email" then u.user_email
  else if k = "user_location" then u.user_location
  else if k = "user_account_type" then u.user_account_type
  else none

/-! ## Helper lemmas about the ordered-dictionary model -/

theorem od_lookup_nil (k : String) : od_lookup [] k = none := rfl

theorem od_lookup_cons (p : String × String) (rest : List (String × String))
    (k : String) :
    od_lookup (p :: rest) k = if p.1 = k then some p.2 else od_lookup rest k := by
  unfold od_lookup
  rw [List.find?_cons]
  by_cases h : p.1 = k
  · simp [h]
  · simp [h]

theorem od_lookup_map_update_ne (d : List (String × String)) (t v k : String)
    (hk : k ≠ t) :
    od_lookup (d.map (fun p => if p.1 = t then (t, v) else p)) k =
      od_lookup d k := by
  induction d with
  | nil => rfl
  | cons p rest ih =>
    simp only [List.map_cons]
    by_cases hp : p.1 = t
    · rw [if_pos hp, od_lookup_cons, od_lookup_cons]
      have h1 : ¬ ((t, v).1 = k) := fun h => hk h.symm
      have h2 : ¬ (p.1 = k) := by rw [hp]; exact fun h => hk h.symm
      rw [if_neg h1, if_neg h2, ih]
    · rw [if_neg hp, od_lookup_cons, od_lookup_cons]
      by_cases h2 : p.1 = k
      · rw [if_pos h2, if_pos h2]
      · rw [if_neg h2, if_neg h2, ih]

theorem od_lookup_map_update_eq (d : List (String × String)) (t v : String)
    (hmem : d.any (fun p => p.1 = t) = true) :
    od_lookup (d.map (fun p => if p.1 = t then (t, v) else p)) t = some v := by
  induction d with
  | nil => simp at hmem
  | cons p rest ih =>
    simp only [List.map_cons]
    by_cases hp : p.1 = t
    · rw [if_pos hp, od_lookup_cons]
      simp
    · rw [if_neg hp, od_lookup_cons, if_neg hp]
      apply ih
      simp only [List.any_cons, hp, decide_False, Bool.false_or] at hmem
      exact hmem

theorem od_lookup_od_insert (d : List (String × String)) (t v k : String) :
    od_lookup (od_insert d t v) k = if k = t then some v else od_lookup d k := by
  unfold od_insert
  by_cases hmem : d.any (fun p => p.1 = t) = true
  · rw [if_pos hmem]
    by_cases hk : k = t
    · subst hk
      rw [if_pos rfl, od_lookup_map_update_eq d k v hmem]
    · rw [if_neg hk, od_lookup_map_update_ne d t v k hk]
  · rw [if_neg hmem]
    unfold od_lookup
    rw [List.find?_append]
    by_cases hk : k = t
    · subst hk
      have hnone : d.find? (fun p => p.1 = k) = none := by
        rw [List.find?_eq_none]
        intro p hp hpk
        apply hmem
        rw [List.any_eq_true]
        exact ⟨p, hp, hpk⟩
      rw [hnone]
      simp
    · have h2 : List.find? (fun p => p.1 = k) [(t, v)] = none := by
        rw [List.find?_eq_none]
        intro p hp
        simp only [List.mem_singleton] at hp
        subst hp
        simp
        exact fun h => hk h.symm
      rw [h2, if_neg hk]
      simp [od_lookup]

/-- Lookup after a dictionary fold over usable events: the value of `k` is
the data of the last event tagged `k`, falling back to the initial state. -/
theorem od_lookup_foldl_pup (events : List TagData) (d : List (String × String))
    (k : String) (hnp : ∀ e ∈ events, e.data ≠ "\r\n") :
    od_lookup (events.foldl pup_handle_data d) k =
      (Option.map (fun e => e.data)
        (events.reverse.find? (fun e => e.tag = k))).or (od_lookup d k) := by
  induction events generalizing d with
  | nil => simp
  | cons e rest ih =>
    rw [List.foldl_cons]
    rw [ih (pup_handle_data d e) (fun x hx => hnp x (List.mem_cons_of_mem _ hx))]
    rw [List.reverse_cons, List.find?_append]
    have hd : pup_handle_data d e = od_insert d e.tag e.data := by
      unfold pup_handle_data
      rw [if_pos (hnp e (List.mem_cons_self _ _))]
    rw [hd, od_lookup_od_insert]
    cases hfind : rest.reverse.find? (fun x => decide (x.tag = k)) with
    | some x => simp [hfind]
    | none =>
      simp only [hfind, Option.none_or]
      by_cases hk : e.tag = k
      · subst hk
        simp [List.find?_cons]
      · have hk2 : ¬ (k = e.tag) := fun h => hk h.symm
        simp [List.find?_cons, hk, hk2]

/-- Every pair of the dictionary produced by an `od_insert` either carries
the inserted key or was already present. -/
theorem fst_mem_od_insert (d : List (String × String)) (t v : String)
    (p : String × String) (hp : p ∈ od_insert d t v) :
    p.1 = t ∨ p ∈ d := by
  unfold od_insert at hp
  by_cases h : d.any (fun q => q.1 = t) = true
  · rw [if_pos h] at hp
    rcases List.mem_map.mp hp with ⟨q, hq, hqe⟩
    by_cases hq1 : q.1 = t
    · left
      rw [← hqe]
      simp [hq1]
    · right
      rw [← hqe]
      simp only [hq1, if_false]
      exact hq
  · rw [if_neg h] at hp
    rcases List.mem_append.mp hp with h1 | h1
    · right
      exact h1
    · left
      simp only [List.mem_singleton] at h1
      rw [h1]

/-- Every pair of the state after a `pup_handle_data` step either carries the
tag of the processed event or was already present. -/
theorem fst_mem_pup_handle_data (d : List (String × String)) (e : TagData)
    (p : String × String) (hp : p ∈ pup_handle_data d e) :
    p.1 = e.tag ∨ p ∈ d := by
  unfold pup_handle_data at hp
  by_cases h : e.data ≠ "\r\n"
  · rw [if_pos h] at hp
    exact fst_mem_od_insert d e.tag e.data p hp
  · rw [if_neg h] at hp
    right
    exact hp

/-- Every pair of the state after folding events either carries the tag of
some event or was already present initially. -/
theorem fst_mem_pup_foldl (events : List TagData) (d : List (String × String))
    (p : String × String) (hp : p ∈ events.foldl pup_handle_data d) :
    p ∈ d ∨ ∃ e ∈ events, e.tag = p.1 := by
  induction events generalizing d with
  | nil => exact Or.inl hp
  | cons e rest ih =>
    rw [List.foldl_cons] at hp
    rcases ih (pup_handle_data d e) hp with h1 | h1
    · rcases fst_mem_pup_handle_data d e p h1 with h2 | h2
      · exact Or.inr ⟨e, List.mem_cons_self _ _, h2.symm⟩
      · exact Or.inl h2
    · rcases h1 with ⟨x, hx, hxe⟩
      exact Or.inr ⟨x, List.mem_cons_of_mem _ hx, hxe⟩

/-- Folding `pplp_handle_data` ignores placeholder events entirely. -/
theorem pplp_foldl_filter (events : List TagData) (d : List (String × String)) :
    events.foldl pplp_handle_data d =
      (events.filter (fun e => e.data ≠ "\r\n")).foldl pplp_handle_data d := by
  induction events generalizing d with
  | nil => rfl
  | cons e rest ih =>
    rw [List.foldl_cons, List.filter_cons]
    by_cases hd : e.data = "\r\n"
    · have h1 : (decide (e.data ≠ "\r\n")) = false := by simp [hd]
      rw [if_neg (by simp [h1])]
      have h2 : pplp_handle_data d e = d := by
        unfold pplp_handle_data
        rw [if_neg (by simp [hd])]
      rw [h2]
      exact ih d
    · rw [if_pos (by simp [hd]), List.foldl_cons]
      exact ih (pplp_handle_data d e)

/-- Folding `pup_handle_data` ignores placeholder events entirely. -/
theorem pup_foldl_filter (events : List TagData) (d : List (String × String)) :
    events.foldl pup_handle_data d =
      (events.filter (fun e => e.data ≠ "\r\n")).foldl pup_handle_data d := by
  induction events generalizing d with
  | nil => rfl
  | cons e rest ih =>
    rw [List.foldl_cons, List.filter_cons]
    by_cases hd : e.data = "\r\n"
    · rw [if_neg (by simp [hd])]
      have h2 : pup_handle_data d e = d := by
        unfold pup_handle_data
        rw [if_neg (by simp [hd])]
      rw [h2]
      exact ih d
    · rw [if_pos (by simp [hd]), List.foldl_cons]
      exact ih (pup_handle_data d e)

/-- Element `i` of a mapped range, read through `List.getD`. -/
theorem getD_map_range {α : Type} [Inhabited α] (f : Nat → α) (n i : Nat)
    (h : i < n) :
    ((List.range n).map f).getD i default = f i := by
  rw [List.getD_eq_getElem?_getD, List.getElem?_map, List.getElem?_range h]
  rfl

/-- With distinct tags, the first event carrying a given member tag is that
member itself. -/
theorem find?_tag_of_mem (events : List TagData) (e : TagData)
    (he : e ∈ events) (hnodup : (events.map (fun x => x.tag)).Nodup) :
    events.find? (fun x => x.tag = e.tag) = some e := by
  induction events with
  | nil => cases he
  | cons a rest ih =>
    rw [List.map_cons, List.nodup_cons] at hnodup
    rw [List.find?_cons]
    rcases List.mem_cons.mp he with rfl | hmem
    · simp
    · have ha : ¬ (a.tag = e.tag) := by
        intro h
        exact hnodup.1 (h ▸ List.mem_map_of_mem (fun x => x.tag) hmem)
      simp only [ha, decide_False]
      exact ih hmem hnodup.2

/-- When every event carries a known tag, the dictionary built by the scan
passes the keyword check of `PastebinUser(**d)`. -/
theorem pup_feed_all_known (events : List TagData)
    (hknown : ∀ e ∈ events, e.tag ∈ known_user_fields) :
    (pup_feed events).all (fun p => known_user_fields.contains p.1) = true := by
  rw [List.all_eq_true]
  intro p hp
  rcases fst_mem_pup_foldl events [] p hp with h | ⟨e, he, hetag⟩
  · cases h
  · have hmem : p.1 ∈ known_user_fields := hetag ▸ hknown e he
    simpa [List.contains] using List.elem_iff.mpr hmem

/-- Each of the nine fields of a successfully extracted user record is the
dictionary value of its keyword name. -/
theorem user_field_of_impl_ok (d : List (String × String)) (u : PastebinUser)
    (h : pup_get_user_information_impl d = Except.ok u)
    (k : String) (hk : k ∈ known_user_fields) :
    user_field u k = od_lookup d k := by
  unfold pup_get_user_information_impl at h
  by_cases hall : d.all (fun p => known_user_fields.contains p.1) = true
  · rw [if_pos hall] at h
    injection h with h2
    subst h2
    simp only [known_user_fields, List.mem_cons, List.not_mem_nil, or_false] at hk
    rcases hk with rfl | rfl | rfl | rfl | rfl | rfl | rfl | rfl | rfl <;> rfl
  · rw [if_neg hall] at h
    cases h

/-- Successful user extraction with the value of every known field: the data
of the last usable event carrying that tag, `none` when there is none. -/
theorem pup_extract_last_write (events : List TagData)
    (hknown : ∀ e ∈ events, e.tag ∈ known_user_fields)
    (hnp : ∀ e ∈ events, e.data ≠ "\r\n") :
    ∃ u, pup_get_user_information events = Except.ok u ∧
      ∀ k ∈ known_user_fields,
        user_field u k =
          Option.map (fun e => e.data)
            (events.reverse.find? (fun e => e.tag = k)) := by
  have hall := pup_feed_all_known events hknown
  cases hok : pup_get_user_information events with
  | error msg =>
    exfalso
    unfold pup_get_user_information pup_get_user_information_impl at hok
    rw [if_pos hall] at hok
    cases hok
  | ok u =>
    refine ⟨u, rfl, ?_⟩
    intro k hk
    have h2 : pup_get_user_information_impl (pup_feed events) = Except.ok u := hok
    rw [user_field_of_impl_ok _ u h2 k hk]
    show od_lookup (events.foldl pup_handle_data []) k = _
    rw [od_lookup_foldl_pup events [] k hnp, od_lookup_nil, Option.or_none]

/-- The inserted key is a key of the dictionary after an `od_insert`. -/
theorem key_inserted_od_insert (d : List (String × String)) (t v : String) :
    ∃ p ∈ od_insert d t v, p.1 = t := by
  unfold od_insert
  by_cases hmem : d.any (fun q => q.1 = t) = true
  · rw [if_pos hmem]
    rw [List.any_eq_true] at hmem
    rcases hmem with ⟨q, hq, hqt⟩
    simp only [decide_eq_true_eq] at hqt
    refine ⟨(fun x => if x.1 = t then (t, v) else x) q,
      List.mem_map_of_mem _ hq, ?_⟩
    simp only [hqt, if_true]
  · rw [if_neg hmem]
    exact ⟨(t, v), List.mem_append.mpr (Or.inr (List.mem_singleton.mpr rfl)), rfl⟩

/-- Keys survive an `od_insert`. -/
theorem key_persists_od_insert (d : List (String × String)) (t v k : String)
    (h : ∃ p ∈ d, p.1 = k) : ∃ p ∈ od_insert d t v, p.1 = k := by
  unfold od_insert
  rcases h with ⟨p, hp, hpk⟩
  by_cases hmem : d.any (fun q => q.1 = t) = true
  · rw [if_pos hmem]
    refine ⟨(fun x => if x.1 = t then (t, v) else x) p,
      List.mem_map_of_mem _ hp, ?_⟩
    by_cases hpt : p.1 = t
    · simp only [hpt, if_true]
      exact hpt.symm.trans hpk
    · simp only [hpt, if_false]
      exact hpk
  · rw [if_neg hmem]
    exact ⟨p, List.mem_append.mpr (Or.inl hp), hpk⟩

/-- Keys survive a `pup_handle_data` step. -/
theorem key_persists_pup_handle_data (d : List (String × String)) (e : TagData)
    (k : String) (h : ∃ p ∈ d, p.1 = k) :
    ∃ p ∈ pup_handle_data d e, p.1 = k := by
  unfold pup_handle_data
  by_cases hd : e.data ≠ "\r\n"
  · rw [if_pos hd]
    exact key_persists_od_insert d e.tag e.data k h
  · rw [if_neg hd]
    exact h

/-- Keys survive a whole fold of `pup_handle_data`. -/
theorem key_persists_pup_foldl (events : List TagData)
    (d : List (String × String)) (k : String) (h : ∃ p ∈ d, p.1 = k) :
    ∃ p ∈ events.foldl pup_handle_data d, p.1 = k := by
  induction events generalizing d with
  | nil => exact h
  | cons e rest ih =>
    rw [List.foldl_cons]
    exact ih _ (key_persists_pup_handle_data d e k h)

/-- The tag of any usable event of the input ends up among the keys of the
dictionary built by the fold. -/
theorem exists_key_pup_foldl (events : List TagData)
    (d : List (String × String)) (e : TagData) (hnp : e.data ≠ "\r\n")
    (he : e ∈ events) :
    ∃ p ∈ events.foldl pup_handle_data d, p.1 = e.tag := by
  induction events generalizing d with
  | nil => cases he
  | cons a rest ih =>
    rw [List.foldl_cons]
    rcases List.mem_cons.mp he with rfl | hmem
    · apply key_persists_pup_foldl
      unfold pup_handle_data
      rw [if_pos hnp]
      exact key_inserted_od_insert d e.tag e.data
    · exact ih _ hmem

/-! ## Claim theorems -/

/-- Claim C1 (amended to `N ≥ 1`): for every paste-list body whose scan, with
placeholder nodes discarded, yields `10 * N` usable tag events with `N ≥ 1`,
extraction succeeds with exactly `N` records in source order; record `i`
takes its ten fields from the scanned events `10*i .. 10*i+9` verbatim, in
the fixed order key, date, title, size, expiration, visibility, format-long,
format-short, url, hits. -/
theorem paste_list_complete_groups (events : List TagData) (N : Nat)
    (hN : 1 ≤ N) (h : (pplp_feed events).length = 10 * N) :
    ∃ pastes : List PastebinPaste,
      pplp_get_pastes events = Except.ok pastes ∧
      pastes.length = N ∧
      ∀ i, i < N →
        pastes.getD i default =
          { paste_key := tup_data (pplp_feed events) (10 * i + 0)
            paste_date := tup_data (pplp_feed events) (10 * i + 1)
            paste_title := tup_data (pplp_feed events) (10 * i + 2)
            paste_size := tup_data (pplp_feed events) (10 * i + 3)
            paste_expire_date := tup_data (pplp_feed events) (10 * i + 4)
            paste_private := tup_data (pplp_feed events) (10 * i + 5)
            paste_format_long := tup_data (pplp_feed events) (10 * i + 6)
            paste_format_short := tup_data (pplp_feed events) (10 * i + 7)
            paste_url := tup_data (pplp_feed events) (10 * i + 8)
            paste_hits := tup_data (pplp_feed events) (10 * i + 9) } := by
  have hpos : 0 < (pplp_feed events).length := by
    rw [h]
    omega
  have hne : pplp_feed events ≠ [] := List.length_pos.mp hpos
  have hdiv : (pplp_feed events).length / 10 = N := by
    rw [h]
    exact Nat.mul_div_cancel_left N (by norm_num)
  refine ⟨(List.range N).map (mk_paste (pplp_feed events)), ?_, ?_, ?_⟩
  · unfold pplp_get_pastes pplp_get_pastes_impl
    rw [if_neg hne, hdiv]
  · rw [List.length_map, List.length_range]
  · intro i hi
    rw [getD_map_range _ N i hi]
    rfl

/-- Hypotheses and conclusion of `paste_list_complete_groups` at a concrete
eleven-node body (ten usable events, one interleaved placeholder). -/
theorem paste_list_complete_groups_witness :
    1 ≤ 1 ∧
    (pplp_feed
      [⟨ "paste_key", "abc" ⟩, ⟨ "td", "\r\n" ⟩, ⟨ "paste_date", "1518" ⟩,
       ⟨ "paste_title", "t" ⟩, ⟨ "paste_size", "10" ⟩,
       ⟨ "paste_expire_date", "N" ⟩, ⟨ "paste_private", "1" ⟩,
       ⟨ "paste_format_long", "Python" ⟩, ⟨ "paste_format_short", "python" ⟩,
       ⟨ "paste_url", "u" ⟩, ⟨ "paste_hits", "7" ⟩]).length = 10 * 1 ∧
    (∃ pastes : List PastebinPaste,
      pplp_get_pastes
        [⟨ "paste_key", "abc" ⟩, ⟨ "td", "\r\n" ⟩, ⟨ "paste_date", "1518" ⟩,
         ⟨ "paste_title", "t" ⟩, ⟨ "paste_size", "10" ⟩,
         ⟨ "paste_expire_date", "N" ⟩, ⟨ "paste_private", "1" ⟩,
         ⟨ "paste_format_long", "Python" ⟩, ⟨ "paste_format_short", "python" ⟩,
         ⟨ "paste_url", "u" ⟩, ⟨ "paste_hits", "7" ⟩] = Except.ok pastes ∧
      pastes.length = 1 ∧
      ∀ i, i < 1 →
        pastes.getD i default =
          { paste_key := tup_data (pplp_feed
              [⟨ "paste_key", "abc" ⟩, ⟨ "td", "\r\n" ⟩, ⟨ "paste_date", "1518" ⟩,
               ⟨ "paste_title", "t" ⟩, ⟨ "paste_size", "10" ⟩,
               ⟨ "paste_expire_date", "N" ⟩, ⟨ "paste_private", "1" ⟩,
               ⟨ "paste_format_long", "Python" ⟩, ⟨ "paste_format_short", "python" ⟩,
               ⟨ "paste_url", "u" ⟩, ⟨ "paste_hits", "7" ⟩]) (10 * i + 0)
            paste_date := tup_data (pplp_feed
              [⟨ "paste_key", "abc" ⟩, ⟨ "td", "\r\n" ⟩, ⟨ "paste_date", "1518" ⟩,
               ⟨ "paste_title", "t" ⟩, ⟨ "paste_size", "10" ⟩,
               ⟨ "paste_expire_date", "N" ⟩, ⟨ "paste_private", "1" ⟩,
               ⟨ "paste_format_long", "Python" ⟩, ⟨ "paste_format_short", "python" ⟩,
               ⟨ "paste_url", "u" ⟩, ⟨ "paste_hits", "7" ⟩]) (10 * i + 1)
            paste_title := tup_data (pplp_feed
              [⟨ "paste_key", "abc" ⟩, ⟨ "td", "\r\n" ⟩, ⟨ "paste_date", "1518" ⟩,
               ⟨ "paste_title", "t" ⟩, ⟨ "paste_size", "10" ⟩,
               ⟨ "paste_expire_date", "N" ⟩, ⟨ "paste_private", "1" ⟩,
               ⟨ "paste_format_long", "Python" ⟩, ⟨ "paste_format_short", "python" ⟩,
               ⟨ "paste_url", "u" ⟩, ⟨ "paste_hits", "7" ⟩]) (10 * i + 2)
            paste_size := tup_data (pplp_feed
              [⟨ "paste_key", "abc" ⟩, ⟨ "td", "\r\n" ⟩, ⟨ "paste_date", "1518" ⟩,
               ⟨ "paste_title", "t" ⟩, ⟨ "paste_size", "10" ⟩,
               ⟨ "paste_expire_date", "N" ⟩, ⟨ "paste_private", "1" ⟩,
               ⟨ "paste_format_long", "Python" ⟩, ⟨ "paste_format_short", "python" ⟩,
               ⟨ "paste_url", "u" ⟩, ⟨ "paste_hits", "7" ⟩]) (10 * i + 3)
            paste_expire_date := tup_data (pplp_feed
              [⟨ "paste_key", "abc" ⟩, ⟨ "td", "\r\n" ⟩, ⟨ "paste_date", "1518" ⟩,
               ⟨ "paste_title", "t" ⟩, ⟨ "paste_size", "10" ⟩,
               ⟨ "paste_expire_date", "N" ⟩, ⟨ "paste_private", "1" ⟩,
               ⟨ "paste_format_long", "Python" ⟩, ⟨ "paste_format_short", "python" ⟩,
               ⟨ "paste_url", "u" ⟩, ⟨ "paste_hits", "7" ⟩]) (10 * i + 4)
            paste_private := tup_data (pplp_feed
              [⟨ "paste_key", "abc" ⟩, ⟨ "td", "\r\n" ⟩, ⟨ "paste_date", "1518" ⟩,
               ⟨ "paste_title", "t" ⟩, ⟨ "paste_size", "10" ⟩,
               ⟨ "paste_expire_date", "N" ⟩, ⟨ "paste_private", "1" ⟩,
               ⟨ "paste_format_long", "Python" ⟩, ⟨ "paste_format_short", "python" ⟩,
               ⟨ "paste_url", "u" ⟩, ⟨ "paste_hits", "7" ⟩]) (10 * i + 5)
            paste_format_long := tup_data (pplp_feed
              [⟨ "paste_key", "abc" ⟩, ⟨ "td", "\r\n" ⟩, ⟨ "paste_date", "1518" ⟩,
               ⟨ "paste_title", "t" ⟩, ⟨ "paste_size", "10" ⟩,
               ⟨ "paste_expire_date", "N" ⟩, ⟨ "paste_private", "1" ⟩,
               ⟨ "paste_format_long", "Python" ⟩, ⟨ "paste_format_short", "python" ⟩,
               ⟨ "paste_url", "u" ⟩, ⟨ "paste_hits", "7" ⟩]) (10 * i + 6)
            paste_format_short := tup_data (pplp_feed
              [⟨ "paste_key", "abc" ⟩, ⟨ "td", "\r\n" ⟩, ⟨ "paste_date", "1518" ⟩,
               ⟨ "paste_title", "t" ⟩, ⟨ "paste_size", "10" ⟩,
               ⟨ "paste_expire_date", "N" ⟩, ⟨ "paste_private", "1" ⟩,
               ⟨ "paste_format_long", "Python" ⟩, ⟨ "paste_format_short", "python" ⟩,
               ⟨ "paste_url", "u" ⟩, ⟨ "paste_hits", "7" ⟩]) (10 * i + 7)
            paste_url := tup_data (pplp_feed
              [⟨ "paste_key", "abc" ⟩, ⟨ "td", "\r\n" ⟩, ⟨ "paste_date", "1518" ⟩,
               ⟨ "paste_title", "t" ⟩, ⟨ "paste_size", "10" ⟩,
               ⟨ "paste_expire_date", "N" ⟩, ⟨ "paste_private", "1" ⟩,
               ⟨ "paste_format_long", "Python" ⟩, ⟨ "paste_format_short", "python" ⟩,
               ⟨ "paste_url", "u" ⟩, ⟨ "paste_hits", "7" ⟩]) (10 * i + 8)
            paste_hits := tup_data (pplp_feed
              [⟨ "paste_key", "abc" ⟩, ⟨ "td", "\r\n" ⟩, ⟨ "paste_date", "1518" ⟩,
               ⟨ "paste_title", "t" ⟩, ⟨ "paste_size", "10" ⟩,
               ⟨ "paste_expire_date", "N" ⟩, ⟨ "paste_private", "1" ⟩,
               ⟨ "paste_format_long", "Python" ⟩, ⟨ "paste_format_short", "python" ⟩,
               ⟨ "paste_url", "u" ⟩, ⟨ "paste_hits", "7" ⟩]) (10 * i + 9) }) :=
  ⟨by decide, by decide, paste_list_complete_groups _ 1 (by decide) (by decide)⟩

/-- Claim C1, counterexample to the `N = 0` case: a body whose scan yields
zero complete groups makes extraction raise the `AttributeError` instead of
yielding zero records. -/
theorem paste_list_zero_groups_raises :
    pplp_get_pastes [] = Except.error pplp_not_ready_msg ∧
    pplp_get_pastes [] ≠ Except.ok [] := by
  refine ⟨rfl, ?_⟩
  intro hcontra
  exact Except.noConfusion hcontra

/-- Claim C2, counterexample: extraction on a fresh user parser that has
processed no input does not raise; it returns a `PastebinUser` with every
field unset. -/
theorem user_extract_fresh_returns_record :
    pup_get_user_information_impl [] =
      Except.ok
        { user_name := none, user_format_short := none, user_expiration := none,
          user_avatar_url := none, user_private := none, user_website := none,
          user_email := none, user_location := none, user_account_type := none } :=
  rfl

/-- Claim C2 (amended): on a fresh instance that has processed no input,
`PastebinPasteListParser._get_pastes` raises the `AttributeError`, while
`PastebinUserParser._get_user_information` raises nothing and returns a
record with every field unset. -/
theorem extract_before_scan_behavior :
    pplp_get_pastes_impl [] = Except.error pplp_not_ready_msg ∧
    pup_get_user_information_impl [] = Except.ok {} :=
  ⟨rfl, rfl⟩

/-- Claim C4: a scan yielding `10*N + r` usable events with `0 < r < 10`
extracts exactly `N` records without error; the trailing `r` events are
dropped. -/
theorem paste_list_trailing_dropped (events : List TagData) (N r : Nat)
    (hr0 : 0 < r) (hr9 : r < 10)
    (h : (pplp_feed events).length = 10 * N + r) :
    ∃ pastes : List PastebinPaste,
      pplp_get_pastes events = Except.ok pastes ∧ pastes.length = N := by
  have hpos : 0 < (pplp_feed events).length := by
    rw [h]
    omega
  have hne : pplp_feed events ≠ [] := List.length_pos.mp hpos
  have hdiv : (pplp_feed events).length / 10 = N := by
    rw [h, Nat.mul_add_div (by norm_num), Nat.div_eq_of_lt hr9, Nat.add_zero]
  refine ⟨(List.range ((pplp_feed events).length / 10)).map
    (mk_paste (pplp_feed events)), ?_, ?_⟩
  · unfold pplp_get_pastes pplp_get_pastes_impl
    rw [if_neg hne]
  · rw [List.length_map, List.length_range, hdiv]

/-- Hypotheses and conclusion of `paste_list_trailing_dropped` at a concrete
body with one usable trailing event (`N = 0`, `r = 1`). -/
theorem paste_list_trailing_dropped_witness :
    0 < 1 ∧ 1 < 10 ∧
    (pplp_feed [⟨ "a", "x" ⟩]).length = 10 * 0 + 1 ∧
    ∃ pastes : List PastebinPaste,
      pplp_get_pastes [⟨ "a", "x" ⟩] = Except.ok pastes ∧ pastes.length = 0 :=
  ⟨by decide, by decide, by decide,
    paste_list_trailing_dropped [⟨ "a", "x" ⟩] 0 1 (by decide) (by decide)
      (by decide)⟩

/-- Claim C5, counterexample: a scan that was performed but produced zero
usable events (a placeholder-only body) makes extraction raise the
`AttributeError` instead of returning an empty list. -/
theorem paste_list_zero_usable_raises :
    pplp_get_pastes [⟨ "td", "\r\n" ⟩] = Except.error pplp_not_ready_msg ∧
    pplp_get_pastes [⟨ "td", "\r\n" ⟩] ≠ Except.ok [] := by
  refine ⟨rfl, ?_⟩
  intro hcontra
  exact Except.noConfusion hcontra

/-- Claim C5 (amended): when a scan yields at least one and fewer than ten
usable events, extraction returns the empty record list without error; with
zero usable events it instead raises the `AttributeError`. -/
theorem paste_list_few_events_empty (events : List TagData)
    (h1 : pplp_feed events ≠ []) (h2 : (pplp_feed events).length < 10) :
    pplp_get_pastes events = Except.ok [] := by
  unfold pplp_get_pastes pplp_get_pastes_impl
  rw [if_neg h1, Nat.div_eq_of_lt h2]
  rfl

/-- Hypotheses and conclusion of `paste_list_few_events_empty` at a concrete
two-event body. -/
theorem paste_list_few_events_empty_witness :
    pplp_feed [⟨ "b", "y" ⟩, ⟨ "c", "z" ⟩] ≠ [] ∧
    (pplp_feed [⟨ "b", "y" ⟩, ⟨ "c", "z" ⟩]).length < 10 ∧
    pplp_get_pastes [⟨ "b", "y" ⟩, ⟨ "c", "z" ⟩] = Except.ok [] :=
  ⟨by decide, by decide,
    paste_list_few_events_empty [⟨ "b", "y" ⟩, ⟨ "c", "z" ⟩] (by decide)
      (by decide)⟩

/-- Claim C6: in both parsers, a text node whose content is exactly CR LF
leaves the parser state unchanged, and a whole scan is unaffected by such
placeholder nodes: feeding any event stream equals feeding the stream with
the placeholder nodes removed. -/
theorem placeholder_crlf_discarded :
    (∀ (st : List (String × String)) (t : String),
        pplp_handle_data st ⟨ t, "\r\n" ⟩ = st) ∧
    (∀ (d : List (String × String)) (t : String),
        pup_handle_data d ⟨ t, "\r\n" ⟩ = d) ∧
    (∀ events : List TagData,
        pplp_feed events =
          pplp_feed (events.filter (fun e => e.data ≠ "\r\n")) ∧
        pup_feed events =
          pup_feed (events.filter (fun e => e.data ≠ "\r\n"))) := by
  refine ⟨?_, ?_, ?_⟩
  · intro st t
    unfold pplp_handle_data
    rw [if_neg (by simp)]
  · intro d t
    unfold pup_handle_data
    rw [if_neg (by simp)]
  · intro events
    exact ⟨pplp_foldl_filter events [], pup_foldl_filter events []⟩

/-- Claim C7, counterexample: a pure-whitespace text node that is not
exactly CR LF is not suppressed — a single-space node emits an event in
both parsers. -/
theorem whitespace_space_event_emitted :
    pplp_handle_data [] ⟨ "a", " " ⟩ = [("a", " ")] ∧
    pup_handle_data [] ⟨ "a", " " ⟩ = [("a", " ")] := by
  constructor <;> rfl

/-- Claim C7 (amended): the scanners suppress only the exact two-character
CR LF text nodes; every other text node, pure whitespace included, emits an
event. -/
theorem only_crlf_suppressed (st d : List (String × String)) (t txt : String)
    (h : txt ≠ "\r\n") :
    pplp_handle_data st ⟨ t, txt ⟩ = st ++ [(t, txt)] ∧
    pup_handle_data d ⟨ t, txt ⟩ = od_insert d t txt := by
  constructor
  · unfold pplp_handle_data
    rw [if_pos h]
  · unfold pup_handle_data
    rw [if_pos h]

/-- Hypothesis and conclusion of `only_crlf_suppressed` at a concrete
single-space text node. -/
theorem only_crlf_suppressed_witness :
    (" " : String) ≠ "\r\n" ∧
    (pplp_handle_data [] ⟨ "b", " " ⟩ = [] ++ [("b", " ")] ∧
     pup_handle_data [] ⟨ "b", " " ⟩ = od_insert [] "b" " ") :=
  ⟨by decide, only_crlf_suppressed [] [] "b" " " (by decide)⟩

/-- Claim C9, evaluation at the concrete paste-list scenario of the spec:
the produced record stores the size, visibility and hit-count fields as the
raw source strings rather than as converted integers. -/
theorem paste_fields_raw_strings :
    pplp_get_pastes
      [⟨ "paste_key", "K1" ⟩, ⟨ "paste_date", "2018-01-01" ⟩,
       ⟨ "paste_title", "Title" ⟩, ⟨ "paste_size", "100" ⟩,
       ⟨ "paste_expire_date", "N" ⟩, ⟨ "paste_private", "0" ⟩,
       ⟨ "paste_format_long", "Text" ⟩, ⟨ "paste_format_short", "text" ⟩,
       ⟨ "paste_url", "http://x/K1" ⟩, ⟨ "paste_hits", "5" ⟩] =
      Except.ok
        [{ paste_key := "K1", paste_date := "2018-01-01",
           paste_title := "Title", paste_size := "100",
           paste_expire_date := "N", paste_private := "0",
           paste_format_long := "Text", paste_format_short := "text",
           paste_url := "http://x/K1", paste_hits := "5" }] := by
  rfl

/-- Claim C3: for a user-info scan whose usable events carry pairwise
distinct tags drawn from the nine known field names, extraction succeeds,
every scanned field is set to its literal text, and every known field whose
tag does not occur is left unset. -/
theorem user_subset_fields (events : List TagData)
    (hknown : ∀ e ∈ events, e.tag ∈ known_user_fields)
    (hnodup : (events.map (fun e => e.tag)).Nodup)
    (hnp : ∀ e ∈ events, e.data ≠ "\r\n") :
    ∃ u : PastebinUser, pup_get_user_information events = Except.ok u ∧
      (∀ e ∈ events, user_field u e.tag = some e.data) ∧
      (∀ k ∈ known_user_fields, (∀ e ∈ events, e.tag ≠ k) →
        user_field u k = none) := by
  obtain ⟨u, hok, hu⟩ := pup_extract_last_write events hknown hnp
  refine ⟨u, hok, ?_, ?_⟩
  · intro e he
    rw [hu e.tag (hknown e he)]
    have hrevnodup : (events.reverse.map (fun x => x.tag)).Nodup := by
      rw [List.map_reverse]
      exact List.nodup_reverse.mpr hnodup
    rw [find?_tag_of_mem events.reverse e (List.mem_reverse.mpr he) hrevnodup]
    rfl
  · intro k hk hnone
    rw [hu k hk]
    have hfind : events.reverse.find? (fun x => x.tag = k) = none := by
      rw [List.find?_eq_none]
      intro x hx
      simp only [decide_eq_true_eq]
      exact hnone x (List.mem_reverse.mp hx)
    rw [hfind]
    rfl

/-- Hypotheses and conclusion of `user_subset_fields` at a concrete body
carrying only the name and email fields. -/
theorem user_subset_fields_witness :
    (∀ e ∈ ([⟨ "user_name", "bob" ⟩, ⟨ "user_email", "b@x" ⟩] : List TagData),
      TagData.tag e ∈ known_user_fields) ∧
    (([⟨ "user_name", "bob" ⟩, ⟨ "user_email", "b@x" ⟩] : List TagData).map
      (fun e => e.tag)).Nodup ∧
    (∀ e ∈ ([⟨ "user_name", "bob" ⟩, ⟨ "user_email", "b@x" ⟩] : List TagData),
      TagData.data e ≠ "\r\n") ∧
    (∃ u : PastebinUser,
      pup_get_user_information
        [⟨ "user_name", "bob" ⟩, ⟨ "user_email", "b@x" ⟩] = Except.ok u ∧
      (∀ e ∈ ([⟨ "user_name", "bob" ⟩, ⟨ "user_email", "b@x" ⟩] : List TagData),
        user_field u e.tag = some e.data) ∧
      (∀ k ∈ known_user_fields,
        (∀ e ∈ ([⟨ "user_name", "bob" ⟩, ⟨ "user_email", "b@x" ⟩] : List TagData),
          TagData.tag e ≠ k) →
        user_field u k = none)) :=
  ⟨by decide, by decide, by decide,
    user_subset_fields [⟨ "user_name", "bob" ⟩, ⟨ "user_email", "b@x" ⟩]
      (by decide) (by decide) (by decide)⟩

/-- Claim C8: when all usable events carry known tags, user extraction
succeeds and each field holds the data of the last event with that tag
(last write wins), `none` when the tag never occurs. -/
theorem user_last_write_wins (events : List TagData)
    (hknown : ∀ e ∈ events, e.tag ∈ known_user_fields)
    (hnp : ∀ e ∈ events, e.data ≠ "\r\n") :
    ∃ u : PastebinUser, pup_get_user_information events = Except.ok u ∧
      ∀ k ∈ known_user_fields,
        user_field u k =
          Option.map (fun e => e.data)
            (events.reverse.find? (fun e => e.tag = k)) :=
  pup_extract_last_write events hknown hnp

/-- Hypotheses and conclusion of `user_last_write_wins` at a concrete body
with a duplicated tag, whose last occurrence carries the text "B". -/
theorem user_last_write_wins_witness :
    (∀ e ∈ ([⟨ "user_name", "A" ⟩, ⟨ "user_name", "B" ⟩] : List TagData),
      TagData.tag e ∈ known_user_fields) ∧
    (∀ e ∈ ([⟨ "user_name", "A" ⟩, ⟨ "user_name", "B" ⟩] : List TagData),
      TagData.data e ≠ "\r\n") ∧
    (∃ u : PastebinUser,
      pup_get_user_information
        [⟨ "user_name", "A" ⟩, ⟨ "user_name", "B" ⟩] = Except.ok u ∧
      ∀ k ∈ known_user_fields,
        user_field u k =
          Option.map (fun e => e.data)
            (([⟨ "user_name", "A" ⟩, ⟨ "user_name", "B" ⟩] :
              List TagData).reverse.find? (fun e => e.tag = k))) :=
  ⟨by decide, by decide,
    user_last_write_wins [⟨ "user_name", "A" ⟩, ⟨ "user_name", "B" ⟩]
      (by decide) (by decide)⟩

/-- Claim C10: a user-info scan containing a usable event with an unknown
tag makes extraction fail with the `TypeError` of keyword expansion rather
than ignore the field. -/
theorem user_unknown_tag_errors (events : List TagData) (e : TagData)
    (he : e ∈ events) (hunk : e.tag ∉ known_user_fields)
    (hnp : e.data ≠ "\r\n") :
    pup_get_user_information events = Except.error pup_type_error_msg := by
  obtain ⟨p, hp, hptag⟩ := exists_key_pup_foldl events [] e hnp he
  have hall : ¬ ((pup_feed events).all
      (fun q => known_user_fields.contains q.1) = true) := by
    intro hall
    rw [List.all_eq_true] at hall
    have hc := hall p hp
    exact hunk (hptag ▸ List.elem_iff.mp hc)
  unfold pup_get_user_information pup_get_user_information_impl
  rw [if_neg hall]

/-- Hypotheses and conclusion of `user_unknown_tag_errors` at a concrete
body containing a single unknown tag. -/
theorem user_unknown_tag_errors_witness :
    (⟨ "bogus", "x" ⟩ : TagData) ∈ ([⟨ "bogus", "x" ⟩] : List TagData) ∧
    (⟨ "bogus", "x" ⟩ : TagData).tag ∉ known_user_fields ∧
    (⟨ "bogus", "x" ⟩ : TagData).data ≠ "\r\n" ∧
    pup_get_user_information [⟨ "bogus", "x" ⟩] =
      Except.error pup_type_error_msg :=
  ⟨by decide, by decide, by decide,
    user_unknown_tag_errors [⟨ "bogus", "x" ⟩] ⟨ "bogus", "x" ⟩ (by decide)
      (by decide) (by decide)⟩
